import Mathlib

/-!
Verification development for the gmaps-gpx core library (src/lib.ts).

The TypeScript core is shallowly embedded over `List Char` and `ℚ`:

* JS numbers that arise in this code are decimal numerals matched by the
  regular expressions of the source; they are modelled exactly as rationals.
* JS regular-expression scans are modelled by deterministic maximal-munch
  scanners; for each regex of the source the scanner is provably equivalent
  to the backtracking semantics because every sub-pattern boundary other
  than the maximal one is followed by a digit and therefore cannot satisfy
  the required continuation.
* JS truthiness tests on strings (`if (s)`, `s || d`) are modelled as
  explicit emptiness tests.
* `new URL(url)` is used by the source only through
  `urlObj.searchParams.get("data")`; it is modelled by an explicit
  query-string lookup (application/x-www-form-urlencoded decoding).
  URL validity checking is not modelled: an invalid URL throws before any
  extraction logic runs, and every claim quantifies over URLs that reach
  the extraction logic.
* Exceptions (`throw new Error`, `URIError` from `decodeURIComponent`) are
  modelled with `Except`.
-/

namespace GmapsGpx

/-! ### Decimal digits of natural numbers -/

/-- Little-endian base-10 digits, with explicit fuel (fuel `n` suffices). -/
def natDigitsAux : Nat → Nat → List Nat
  | 0, _ => []
  | f + 1, n => if n = 0 then [] else n % 10 :: natDigitsAux f (n / 10)

/-- Little-endian base-10 digits of `n` (empty for `0`). -/
def natDigits (n : Nat) : List Nat := natDigitsAux n n

/-- Value of a little-endian digit list. -/
def digitsVal : List Nat → Nat
  | [] => 0
  | d :: ds => d + 10 * digitsVal ds

/-- Character of a single decimal digit. -/
def digitChar : Nat → Char
  | 0 => '0' | 1 => '1' | 2 => '2' | 3 => '3' | 4 => '4'
  | 5 => '5' | 6 => '6' | 7 => '7' | 8 => '8' | _ => '9'

/-- Most-significant-first character list of `n` without the zero special
case (empty for `0`). -/
def rawNatChars (n : Nat) : List Char := (natDigits n).reverse.map digitChar

/-- Decimal numeral of `n`, as the JS `${n}` conversion produces it. -/
def natStr (n : Nat) : List Char := if n = 0 then ['0'] else rawNatChars n

/-- ASCII decimal digit test. -/
def isDigitC (c : Char) : Bool := decide ('0' ≤ c) && decide (c ≤ '9')

/-- Numeric value of a digit character. -/
def digitVal (c : Char) : Nat := c.toNat - 48

/-- Most-significant-first evaluation of a digit-character list. -/
def msdVal (cs : List Char) : Nat := cs.foldl (fun a c => a * 10 + digitVal c) 0

/-! ### JavaScript character classes and basic string helpers -/

/-- Characters matched by the JS regex class `\s` (also the set trimmed by
`String.prototype.trim`). -/
def jsWhitespace (c : Char) : Bool :=
  let n := c.toNat
  decide (n = 9) || decide (n = 10) || decide (n = 11) || decide (n = 12) ||
  decide (n = 13) || decide (n = 32) || decide (n = 0xA0) || decide (n = 0x1680) ||
  (decide (0x2000 ≤ n) && decide (n ≤ 0x200A)) || decide (n = 0x2028) ||
  decide (n = 0x2029) || decide (n = 0x202F) || decide (n = 0x205F) ||
  decide (n = 0x3000) || decide (n = 0xFEFF)

/-- Characters matched by the JS regex class `\w`. -/
def isWordChar (c : Char) : Bool :=
  (decide ('a' ≤ c) && decide (c ≤ 'z')) || (decide ('A' ≤ c) && decide (c ≤ 'Z')) ||
  isDigitC c || decide (c = '_')

/-- ASCII lower-casing, modelling `String.prototype.toLowerCase` on the
ASCII range (the only range that survives later `\w` filtering). -/
def jsToLower (c : Char) : Char :=
  if decide ('A' ≤ c) && decide (c ≤ 'Z') then Char.ofNat (c.toNat + 32) else c

/-- Model of `String.prototype.trim`. -/
def jsTrim (cs : List Char) : List Char :=
  ((cs.dropWhile jsWhitespace).reverse.dropWhile jsWhitespace).reverse

/-- Model of `String.prototype.split` with a single-character separator. -/
def splitOnChar (sep : Char) : List Char → List (List Char)
  | [] => [[]]
  | c :: cs =>
    let r := splitOnChar sep cs
    if c = sep then [] :: r
    else
      match r with
      | [] => [[c]]
      | g :: gs => (c :: g) :: gs

/-- Test that `p` is a prefix of `s` (executable). -/
def isPrefix : List Char → List Char → Bool
  | [], _ => true
  | _ :: _, [] => false
  | p :: ps, c :: cs => decide (p = c) && isPrefix ps cs

/-! ### Percent decoding and UTF-8, modelling `decodeURIComponent` and
`URLSearchParams` value decoding -/

/-- Value of a hexadecimal digit character. -/
def hexVal (c : Char) : Option Nat :=
  if isDigitC c then some (digitVal c)
  else if decide ('a' ≤ c) && decide (c ≤ 'f') then some (c.toNat - 87)
  else if decide ('A' ≤ c) && decide (c ≤ 'F') then some (c.toNat - 55)
  else none

/-- UTF-8 bytes of one scalar value. -/
def utf8EncodeChar (c : Char) : List Nat :=
  let n := c.toNat
  if n < 0x80 then [n]
  else if n < 0x800 then [0xC0 + n / 0x40, 0x80 + n % 0x40]
  else if n < 0x10000 then
    [0xE0 + n / 0x1000, 0x80 + (n / 0x40) % 0x40, 0x80 + n % 0x40]
  else
    [0xF0 + n / 0x40000, 0x80 + (n / 0x1000) % 0x40, 0x80 + (n / 0x40) % 0x40,
     0x80 + n % 0x40]

/-- Strict percent-decoding to bytes: a `%` must be followed by two hex
digits, as `decodeURIComponent` requires (it throws `URIError` otherwise).
Characters that are not part of an escape contribute their UTF-8 bytes. -/
def percentBytesStrict : List Char → Option (List Nat)
  | [] => some []
  | '%' :: rest =>
    match rest with
    | h1 :: h2 :: r =>
      match hexVal h1, hexVal h2 with
      | some a, some b => (percentBytesStrict r).map (fun bs => (a * 16 + b) :: bs)
      | _, _ => none
    | _ => none
  | c :: rest => (percentBytesStrict rest).map (fun bs => utf8EncodeChar c ++ bs)

/-- Lenient percent-decoding to bytes, as `application/x-www-form-urlencoded`
value parsing performs it: a malformed escape leaves the `%` literal. -/
def percentBytesLenient : List Char → List Nat
  | [] => []
  | '%' :: h1 :: h2 :: r =>
    match hexVal h1, hexVal h2 with
    | some a, some b => (a * 16 + b) :: percentBytesLenient r
    | _, _ => utf8EncodeChar '%' ++ percentBytesLenient (h1 :: h2 :: r)
  | '%' :: r => utf8EncodeChar '%' ++ percentBytesLenient r
  | c :: r => utf8EncodeChar c ++ percentBytesLenient r

/-- Continuation-byte test. -/
def isCont (b : Nat) : Bool := decide (0x80 ≤ b) && decide (b < 0xC0)

/-- Assemble a scalar from a two-byte sequence. -/
def utf8Char2 (b1 b2 : Nat) : Char := Char.ofNat ((b1 - 0xC0) * 0x40 + (b2 - 0x80))

/-- Assemble a scalar from a three-byte sequence. -/
def utf8Char3 (b1 b2 b3 : Nat) : Char :=
  Char.ofNat ((b1 - 0xE0) * 0x1000 + (b2 - 0x80) * 0x40 + (b3 - 0x80))

/-- Assemble a scalar from a four-byte sequence. -/
def utf8Char4 (b1 b2 b3 b4 : Nat) : Char :=
  Char.ofNat ((b1 - 0xF0) * 0x40000 + (b2 - 0x80) * 0x1000 + (b3 - 0x80) * 0x40 + (b4 - 0x80))

/-- Strict UTF-8 decoding (rejects overlong forms, surrogates and values
above U+10FFFF), modelling the decoding inside `decodeURIComponent`. -/
def utf8DecodeStrict : List Nat → Option (List Char)
  | [] => some []
  | b1 :: rest =>
    if b1 < 0x80 then (utf8DecodeStrict rest).map (fun cs => Char.ofNat b1 :: cs)
    else if b1 < 0xC2 then none
    else if b1 < 0xE0 then
      match rest with
      | b2 :: r2 =>
        if isCont b2 then (utf8DecodeStrict r2).map (fun cs => utf8Char2 b1 b2 :: cs)
        else none
      | _ => none
    else if b1 < 0xF0 then
      match rest with
      | b2 :: b3 :: r3 =>
        let lo2 := if b1 = 0xE0 then 0xA0 else 0x80
        let hi2 := if b1 = 0xED then 0xA0 else 0xC0
        if decide (lo2 ≤ b2) && decide (b2 < hi2) && isCont b3 then
          (utf8DecodeStrict r3).map (fun cs => utf8Char3 b1 b2 b3 :: cs)
        else none
      | _ => none
    else if b1 < 0xF5 then
      match rest with
      | b2 :: b3 :: b4 :: r4 =>
        let lo2 := if b1 = 0xF0 then 0x90 else 0x80
        let hi2 := if b1 = 0xF4 then 0x90 else 0xC0
        if decide (lo2 ≤ b2) && decide (b2 < hi2) && isCont b3 && isCont b4 then
          (utf8DecodeStrict r4).map (fun cs => utf8Char4 b1 b2 b3 b4 :: cs)
        else none
      | _ => none
    else none

/-- Unicode replacement character. -/
def replChar : Char := Char.ofNat 0xFFFD

/-- Lenient UTF-8 decoding with replacement characters, modelling
`URLSearchParams` value decoding. The fuel argument of the worker is merely
a termination device; each step consumes at least one byte, so fuel equal
to the byte count always suffices. -/
def utf8DecodeLenientAux : Nat → List Nat → List Char
  | 0, _ => []
  | _, [] => []
  | fuel + 1, b1 :: rest =>
    if b1 < 0x80 then Char.ofNat b1 :: utf8DecodeLenientAux fuel rest
    else if b1 < 0xC2 then replChar :: utf8DecodeLenientAux fuel rest
    else if b1 < 0xE0 then
      match rest with
      | b2 :: r2 =>
        if isCont b2 then utf8Char2 b1 b2 :: utf8DecodeLenientAux fuel r2
        else replChar :: utf8DecodeLenientAux fuel rest
      | _ => [replChar]
    else if b1 < 0xF0 then
      match rest with
      | b2 :: b3 :: r3 =>
        let lo2 := if b1 = 0xE0 then 0xA0 else 0x80
        let hi2 := if b1 = 0xED then 0xA0 else 0xC0
        if decide (lo2 ≤ b2) && decide (b2 < hi2) && isCont b3 then
          utf8Char3 b1 b2 b3 :: utf8DecodeLenientAux fuel r3
        else replChar :: utf8DecodeLenientAux fuel rest
      | _ => [replChar]
    else if b1 < 0xF5 then
      match rest with
      | b2 :: b3 :: b4 :: r4 =>
        let lo2 := if b1 = 0xF0 then 0x90 else 0x80
        let hi2 := if b1 = 0xF4 then 0x90 else 0xC0
        if decide (lo2 ≤ b2) && decide (b2 < hi2) && isCont b3 && isCont b4 then
          utf8Char4 b1 b2 b3 b4 :: utf8DecodeLenientAux fuel r4
        else replChar :: utf8DecodeLenientAux fuel rest
      | _ => [replChar]
    else replChar :: utf8DecodeLenientAux fuel rest

/-- Lenient UTF-8 decoding entry point. -/
def utf8DecodeLenient (bs : List Nat) : List Char := utf8DecodeLenientAux bs.length bs

/-- Model of `decodeURIComponent`: `none` models a thrown `URIError`. -/
def decodeURIComponentL (cs : List Char) : Option (List Char) :=
  (percentBytesStrict cs).bind utf8DecodeStrict

/-- Model of `application/x-www-form-urlencoded` text decoding, used by
`URLSearchParams` for names and values: plus signs become spaces, then
percent-escapes are decoded leniently. -/
def formDecode (cs : List Char) : List Char :=
  utf8DecodeLenient (percentBytesLenient (cs.map (fun c => if c = '+' then ' ' else c)))

/-! ### Signed decimal numerals

The source matches numbers with the regex fragment `-?\d+\.?\d*` and feeds
the match to `parseFloat`. `parseSignedDec` is the deterministic
maximal-munch scanner for that fragment, returning the exact rational value
of the numeral and the unconsumed remainder. -/

/-- Scan the unsigned numeral part `\d+\.?\d*` at the head of `cs`. -/
def parseUnsigned (cs : List Char) : Option (ℚ × List Char) :=
  let ds := cs.takeWhile isDigitC
  let cs2 := cs.dropWhile isDigitC
  if ds.isEmpty then none
  else
    let fds := if cs2.head? = some '.' then cs2.tail.takeWhile isDigitC else []
    let cs3 := if cs2.head? = some '.' then cs2.tail.dropWhile isDigitC else cs2
    some ((msdVal ds : ℚ) + (msdVal fds : ℚ) / (10 : ℚ) ^ fds.length, cs3)

/-- Scan a numeral of shape `-?\d+\.?\d*` at the head of `cs`, returning
its exact value and the unconsumed remainder. -/
def parseSignedDec (cs : List Char) : Option (ℚ × List Char) :=
  if cs.head? = some '-' then (parseUnsigned cs.tail).map (fun p => (-p.1, p.2))
  else parseUnsigned cs

/-- Least exponent `k` in a sufficient search range with `d ∣ 10 ^ k`,
if one exists; `none` exactly when `d` has a prime factor other than 2
and 5 (then no finite decimal expansion exists). -/
def decExp (d : Nat) : Option Nat :=
  (List.range (max (Nat.log 2 d) (Nat.log 5 d) + 1)).find? (fun k => 10 ^ k % d = 0)

/-- Digits of `m` left-padded with zeros to width `k`. -/
def padZeros (k m : Nat) : List Char :=
  List.replicate (k - (rawNatChars m).length) '0' ++ rawNatChars m

/-- Decimal string of a rational, as the JS number-to-string conversion
produces it for the dyadic rationals that are actual `number` values (every
float is 2-adic, hence has a finite decimal expansion; `decExp` succeeds on
it). Rationals without a finite decimal expansion cannot arise from a JS
number and are printed in fraction form merely to keep the model total. -/
def ratToDecStringAux (q : ℚ) : Option Nat → List Char
  | some k =>
    let n := q.num.natAbs * 10 ^ k / q.den
    let s := if k = 0 then natStr n
             else natStr (n / 10 ^ k) ++ '.' :: padZeros k (n % 10 ^ k)
    if q.num < 0 then '-' :: s else s
  | none =>
    (if q.num < 0 then ['-'] else []) ++ natStr q.num.natAbs ++ '/' :: natStr q.den

/-- Decimal string of a rational (see `ratToDecStringAux`). -/
def ratToDecString (q : ℚ) : List Char := ratToDecStringAux q (decExp q.den)

/-! ### Data model (lib.ts `Coordinate`, `RouteData`) -/

/-- Model of the `Coordinate` interface. -/
structure Coordinate where
  lat : ℚ
  lng : ℚ
  name : Option String

deriving DecidableEq

/-- Model of the `RouteData` interface. -/
structure RouteData where
  waypoints : List Coordinate
  routeName : String

deriving DecidableEq

/-- Errors thrown by the extraction code: `extraction` models the
`throw new Error("Could not extract coordinates ...")` of lines 159-164
of lib.ts, and `uriError` models a `URIError` escaping from
`decodeURIComponent`. -/
inductive JsError where
  | extraction
  | uriError

deriving DecidableEq

/-! ### URL scanners, one per regex of `parseGoogleMapsUrl` -/

/-- First match of the capture of the regex fragment from line 78 of
lib.ts: the maximal run of characters other than the at sign that follows
an occurrence of the directions marker, provided the run is non-empty;
on an empty run the scan resumes, as regex searching does. -/
def findDirCapture : List Char → Option (List Char)
  | [] => none
  | c :: cs =>
    if isPrefix ("/maps/dir/".data) (c :: cs) then
      let cap := ((c :: cs).drop 10).takeWhile (fun x => !(decide (x = '@')))
      if cap.isEmpty then findDirCapture cs else some cap
    else findDirCapture cs

/-- First match of the capture of the path-data regex from line 104 of
lib.ts: the maximal non-empty run of characters other than the question
mark following an occurrence of the data marker. -/
def findDataPath : List Char → Option (List Char)
  | [] => none
  | c :: cs =>
    if isPrefix ("/data=".data) (c :: cs) then
      let cap := ((c :: cs).drop 6).takeWhile (fun x => !(decide (x = '?')))
      if cap.isEmpty then findDataPath cs else some cap
    else findDataPath cs

/-- First match of the viewport regex from line 148 of lib.ts: an at sign
followed by two comma-separated signed decimals; returns the two captured
values. -/
def scanAt : List Char → Option (ℚ × ℚ)
  | [] => none
  | c :: cs =>
    if c = '@' then
      match parseSignedDec cs with
      | some (a, rest1) =>
        match rest1 with
        | ',' :: rest2 =>
          match parseSignedDec rest2 with
          | some (b, _) => some (a, b)
          | none => scanAt cs
        | _ => scanAt cs
      | none => scanAt cs
    else scanAt cs

/-- One attempted match of the data-coordinate regex of line 117 of
lib.ts at the current position: `!1d` then a signed decimal then `!2d`
then a signed decimal. Returns the `!1d` group, the `!2d` group and the
remainder after the match. -/
def tryDataPair (cs : List Char) : Option (ℚ × ℚ × List Char) :=
  if isPrefix ("!1d".data) cs then
    match parseSignedDec (cs.drop 3) with
    | some (lngv, r1) =>
      if isPrefix ("!2d".data) r1 then
        match parseSignedDec (r1.drop 3) with
        | some (latv, r2) => some (lngv, latv, r2)
        | none => none
      else none
    | none => none
  else none

/-- Worker for the global scan; the fuel argument is a termination device
(each step consumes at least one character, so the character count is
always enough fuel). -/
def scanDataCoordsAux : Nat → List Char → List (ℚ × ℚ)
  | 0, _ => []
  | _ + 1, [] => []
  | fuel + 1, c :: cs =>
    match tryDataPair (c :: cs) with
    | some (lngv, latv, rest) => (latv, lngv) :: scanDataCoordsAux fuel rest
    | none => scanDataCoordsAux fuel cs

/-- All `(lat, lng)` pairs found by the global `!1d<lng>!2d<lat>` scan of
lines 117-125 of lib.ts, in match order; `lat` is the `!2d` group and
`lng` the `!1d` group (lines 121-124). -/
def scanDataCoords (cs : List Char) : List (ℚ × ℚ) := scanDataCoordsAux cs.length cs

/-! ### The query string and `searchParams.get("data")` -/

/-- Query component of a URL string: the text after the first question
mark, the fragment (everything from the first hash on) excluded. -/
def queryOf (cs : List Char) : Option (List Char) :=
  let beforeFrag := cs.takeWhile (fun c => !(decide (c = '#')))
  if beforeFrag.any (fun c => decide (c = '?')) then
    some ((beforeFrag.dropWhile (fun c => !(decide (c = '?')))).tail)
  else none

/-- Split a `name=value` pair at the first equals sign; a pair without an
equals sign has the whole text as name and an empty value. -/
def splitFirstEq (p : List Char) : List Char × List Char :=
  let k := p.takeWhile (fun c => !(decide (c = '=')))
  let r := p.dropWhile (fun c => !(decide (c = '=')))
  (k, r.tail)

/-- Model of `new URL(url).searchParams.get("data")`: the first
form-decoded value whose form-decoded name is `data`. -/
def searchParamsGetData (url : List Char) : Option String :=
  match queryOf url with
  | none => none
  | some q =>
    let pairs := (splitOnChar '&' q).filter (fun p => !p.isEmpty)
    pairs.findSome? (fun p =>
      let kv := splitFirstEq p
      if formDecode kv.1 = "data".data then some (String.mk (formDecode kv.2)) else none)

/-! ### The extraction pipeline (`parseGoogleMapsUrl`, lib.ts lines 68-176) -/

/-- Anchored match of the per-segment coordinate regex of line 85 of
lib.ts: a signed decimal, a comma, a signed decimal, end of string. -/
def segCoord (loc : List Char) : Option (ℚ × ℚ) :=
  match parseSignedDec loc with
  | some (a, rest) =>
    match rest with
    | ',' :: rest2 =>
      match parseSignedDec rest2 with
      | some (b, []) => some (a, b)
      | _ => none
    | _ => none
  | none => none

/-- Strategy 1 (lines 76-96 of lib.ts): split the directions capture on
slashes, keep the segments whose trim is non-empty, turn coordinate-pair
segments into unnamed waypoints and collect every other segment, plus
signs replaced by spaces and percent-decoded, into the location names. -/
def strat1 (url : List Char) : Except JsError (List Coordinate × List String) :=
  match findDirCapture url with
  | none => .ok ([], [])
  | some pathPart =>
    let locations := (splitOnChar '/' pathPart).filter (fun s => !(jsTrim s).isEmpty)
    locations.foldlM (fun acc loc =>
      match segCoord loc with
      | some (la, lo) => .ok (acc.1 ++ [⟨la, lo, none⟩], acc.2)
      | none =>
        match decodeURIComponentL (loc.map (fun c => if c = '+' then ' ' else c)) with
        | some nm => .ok (acc.1, acc.2 ++ [String.mk nm])
        | none => .error .uriError) (([], []) : List Coordinate × List String)

/-- JS truthiness of a nullable string: `null` and the empty string are
falsy. -/
def jsTruthy : Option String → Bool
  | none => false
  | some s => !s.data.isEmpty

/-- The `data` parameter of lines 100-108 of lib.ts: the query parameter
when truthy, otherwise the URL-decoded `/data=` path capture when present
(decoding failure is a thrown `URIError`), otherwise whatever the query
lookup produced. -/
def dataParamOf (url : List Char) : Except JsError (Option String) :=
  let q := searchParamsGetData url
  if jsTruthy q then .ok q
  else
    match findDataPath url with
    | none => .ok q
    | some raw =>
      match decodeURIComponentL raw with
      | some s => .ok (some (String.mk s))
      | none => .error .uriError

/-- Name attached to data-parameter waypoint `i` of `n` (lines 134-136 of
lib.ts): the `i`-th location name when it exists, else `Start` for the
first, `End` for the last, `Via <i>` otherwise. -/
def synthName (i n : Nat) (names : List String) : String :=
  match names.get? i with
  | some nm => nm
  | none =>
    if i = 0 then "Start"
    else if i = n - 1 then "End"
    else String.mk ("Via ".data ++ natStr i)

/-- Indexed map starting at a given index (used for the `forEach` loops
with index of the source). -/
def mapIdxFrom (f : Nat → α → β) : Nat → List α → List β
  | _, [] => []
  | i, a :: l => f i a :: mapIdxFrom f (i + 1) l

/-- The waypoint list built from the data-parameter coordinates
(lines 127-143 of lib.ts). -/
def namedDataWaypoints (coords : List (ℚ × ℚ)) (names : List String) : List Coordinate :=
  mapIdxFrom (fun i p => ⟨p.1, p.2, some (synthName i coords.length names)⟩) 0 coords

/-- Strategy 2 and Strategy 3 on top of the Strategy 1 result
(lib.ts lines 110-154): when the data parameter is truthy and its scan
yields coordinates they replace the Strategy 1 waypoints; when the
waypoint list is still empty the viewport match contributes one unnamed
waypoint. -/
def withData (s1 : List Coordinate × List String) (dp : Option String)
    (url : List Char) : List Coordinate × List String :=
  let afterData :=
    if jsTruthy dp then
      let d := (dp.getD "").data
      let dataCoords := scanDataCoords d
      if dataCoords.isEmpty then s1.1
      else namedDataWaypoints dataCoords s1.2
    else s1.1
  let waypoints :=
    if afterData.isEmpty then
      match scanAt url with
      | some (la, lo) => [⟨la, lo, none⟩]
      | none => []
    else afterData
  (waypoints, s1.2)

/-- Exception propagation around `withData`: a thrown `URIError` from
Strategy 1 or from the data-parameter decode aborts the whole parse. -/
def candAux (url : List Char) :
    Except JsError (List Coordinate × List String) → Except JsError (Option String) →
      Except JsError (List Coordinate × List String)
  | .error e, _ => .error e
  | .ok _, .error e => .error e
  | .ok s1, .ok dp => .ok (withData s1 dp url)

/-- Candidate waypoints and location names: everything the source does
before the `(0,0)` filter (lib.ts lines 69-154). -/
def candidateWaypoints (url : List Char) : Except JsError (List Coordinate × List String) :=
  candAux url (strat1 url) (dataParamOf url)

/-- JS `s || dflt` on a nullable string: the string when present and
non-empty, else the default. -/
def jsOrStr (o : Option String) (dflt : String) : String :=
  match o with
  | some s => if s.data.isEmpty then dflt else s
  | none => dflt

/-- JS `w.name || dflt`: the name when present and non-empty, else the
default. -/
def nameOr (w : Coordinate) (dflt : String) : String := jsOrStr w.name dflt

/-- The `(0,0)` filter predicate of line 157 of lib.ts:
`w.lat !== 0 || w.lng !== 0`. -/
def validCoord (w : Coordinate) : Bool :=
  !(decide (w.lat = 0)) || !(decide (w.lng = 0))

/-- Route name derivation of lines 166-173 of lib.ts. -/
def routeNameOf (locationNames : List String) (validWaypoints : List Coordinate) : String :=
  if 2 ≤ locationNames.length then
    locationNames.headD "" ++ " to " ++ locationNames.getLastD ""
  else if 2 ≤ validWaypoints.length then
    nameOr (validWaypoints.headD ⟨0, 0, none⟩) "Start" ++ " to " ++
      nameOr (validWaypoints.getLastD ⟨0, 0, none⟩) "End"
  else "Google Maps Route"

/-- Post-processing of the candidate result: the `(0,0)` filter, the
no-coordinates error, and the route name (lib.ts lines 156-175). -/
def parseFromCands : Except JsError (List Coordinate × List String) → Except JsError RouteData
  | .error e => .error e
  | .ok (waypoints, locationNames) =>
    let validWaypoints := waypoints.filter validCoord
    if validWaypoints.isEmpty then .error .extraction
    else .ok ⟨validWaypoints, routeNameOf locationNames validWaypoints⟩

/-- Model of `parseGoogleMapsUrl` (lib.ts lines 68-176). -/
def parseGoogleMapsUrl (url : String) : Except JsError RouteData :=
  parseFromCands (candidateWaypoints url.data)

/-! ### XML escaping and GPX generation (`escapeXml`, `generateGpx`) -/

/-- The apostrophe character. -/
def apos : Char := Char.ofNat 39

/-- Global single-character replacement: the meaning of one
`replace(/c/g, r)` call of the source. -/
def replaceChar (c : Char) (r : List Char) (s : List Char) : List Char :=
  (s.map (fun x => if x = c then r else [x])).flatten

/-- Model of `escapeXml` (lib.ts lines 185-192): the five global
replacements in source order, ampersand innermost (first). -/
def escapeXml (s : List Char) : List Char :=
  replaceChar apos ("&apos;".data)
    (replaceChar '"' ("&quot;".data)
      (replaceChar '>' ("&gt;".data)
        (replaceChar '<' ("&lt;".data)
          (replaceChar '&' ("&amp;".data) s))))

/-- Waypoint display name (lib.ts line 204): `wp.name || "Waypoint <i+1>"`. -/
def nameOrWaypoint (wp : Coordinate) (index : Nat) : String :=
  nameOr wp (String.mk ("Waypoint ".data ++ natStr (index + 1)))

/-- The fixed document text up to the track name (lib.ts lines 194-200). -/
def gpxHeader : List Char :=
  ("<?xml version=\"1.0\" encoding=\"UTF-8\"?>\n<gpx version=\"1.1\" creator=\"gmaps-gpx\"\n  xmlns=\"http://www.topografix.com/GPX/1/1\"\n  xmlns:xsi=\"http://www.w3.org/2001/XMLSchema-instance\"\n  xsi:schemaLocation=\"http://www.topografix.com/GPX/1/1 http://www.topografix.com/GPX/1/1/gpx.xsd\">\n  <trk>\n    <name>").data

/-- The fixed text between the track name and the points (lines 200-202). -/
def gpxMid : List Char := ("</name>\n    <trkseg>\n").data

/-- The fixed closing text (lines 210-213). -/
def gpxFooter : List Char := ("    </trkseg>\n  </trk>\n</gpx>\n").data

/-- One `<trkpt>` block (lib.ts lines 205-208). -/
def trkptBlock (index : Nat) (wp : Coordinate) : List Char :=
  ("      <trkpt lat=\"").data ++ ratToDecString wp.lat ++ ("\" lon=\"").data ++
  ratToDecString wp.lng ++ ("\">\n        <name>").data ++
  escapeXml (nameOrWaypoint wp index).data ++ ("</name>\n      </trkpt>\n").data

/-- Model of `generateGpx` (lib.ts lines 181-216); the route name is
`customRouteName || routeData.routeName` (line 183). -/
def generateGpx (routeData : RouteData) (customRouteName : Option String) : String :=
  let routeName := jsOrStr customRouteName routeData.routeName
  String.mk (gpxHeader ++ escapeXml routeName.data ++ gpxMid ++
    (mapIdxFrom trkptBlock 0 routeData.waypoints).flatten ++ gpxFooter)

/-! ### `slugify` (lib.ts lines 20-27) -/

/-- Global replacement of every character of a class with a fixed string:
the meaning of `replace(/[class]/g, r)` for a one-character class. -/
def replaceClass (cls : Char → Bool) (r : List Char) (s : List Char) : List Char :=
  (s.map (fun x => if cls x then r else [x])).flatten

/-- Global replacement of maximal runs of a class by one hyphen: the
meaning of `replace(/[\s_-]+/g, "-")`. The boolean tracks whether the
previous character was inside a run. -/
def collapseRuns (cls : Char → Bool) : Bool → List Char → List Char
  | _, [] => []
  | inRun, c :: cs =>
    if cls c then
      if inRun then collapseRuns cls true cs
      else '-' :: collapseRuns cls true cs
    else c :: collapseRuns cls false cs

/-- Meaning of `replace(/^-+|-+$/g, "")`: drop the leading and the
trailing run of hyphens. -/
def stripEdgeHyphens (s : List Char) : List Char :=
  ((s.dropWhile (fun c => decide (c = '-'))).reverse.dropWhile
    (fun c => decide (c = '-'))).reverse

/-- Model of `slugify` (lib.ts lines 20-27): lower-case, trim, strip
`[^\w\s-]`, collapse `[\s_-]+` to one hyphen, strip edge hyphens. -/
def slugify (text : String) : String :=
  let s1 := text.data.map jsToLower
  let s2 := jsTrim s1
  let s3 := replaceClass (fun c => !(isWordChar c || jsWhitespace c || decide (c = '-'))) [] s2
  let s4 := collapseRuns (fun c => jsWhitespace c || decide (c = '_') || decide (c = '-')) false s3
  String.mk (stripEdgeHyphens s4)

/-! ### A conformant reader for the emitted GPX document shape -/

/-- Drop an exact literal prefix, failing when it is absent. -/
def dropLit (lit cs : List Char) : Option (List Char) :=
  if isPrefix lit cs then some (cs.drop lit.length) else none

/-- Text up to the first occurrence of the stop character and the
remainder after it; fails when the stop character does not occur. -/
def readUntil (stop : Char) (cs : List Char) : Option (List Char × List Char) :=
  let pre := cs.takeWhile (fun c => !(decide (c = stop)))
  let rest := cs.dropWhile (fun c => !(decide (c = stop)))
  match rest with
  | [] => none
  | _ :: r => some (pre, r)

/-- Entity-decoding worker (fuel is a termination device; each step
consumes at least one character). -/
def unescapeAux : Nat → List Char → List Char
  | 0, cs => cs
  | _ + 1, [] => []
  | fuel + 1, c :: rest =>
    if c = '&' then
      if isPrefix ("amp;".data) rest then '&' :: unescapeAux fuel (rest.drop 4)
      else if isPrefix ("lt;".data) rest then '<' :: unescapeAux fuel (rest.drop 3)
      else if isPrefix ("gt;".data) rest then '>' :: unescapeAux fuel (rest.drop 3)
      else if isPrefix ("quot;".data) rest then '"' :: unescapeAux fuel (rest.drop 5)
      else if isPrefix ("apos;".data) rest then apos :: unescapeAux fuel (rest.drop 5)
      else c :: unescapeAux fuel rest
    else c :: unescapeAux fuel rest

/-- Decode the five predefined XML entities. -/
def unescapeXml (cs : List Char) : List Char := unescapeAux cs.length cs

/-- Read an attribute value or text that must be a whole signed decimal
numeral. -/
def parseNumAll (cs : List Char) : Option ℚ :=
  match parseSignedDec cs with
  | some (v, []) => some v
  | _ => none

/-- Read one `trkpt` element of the emitted shape. -/
def readTrkpt (cs : List Char) : Option ((ℚ × ℚ × String) × List Char) := do
  let cs1 ← dropLit (("      <trkpt lat=\"").data) cs
  let p1 ← readUntil '"' cs1
  let latV ← parseNumAll p1.1
  let cs2 ← dropLit ((" lon=\"").data) p1.2
  let p2 ← readUntil '"' cs2
  let lonV ← parseNumAll p2.1
  let cs3 ← dropLit ((">\n        <name>").data) p2.2
  let p3 ← readUntil '<' cs3
  let cs4 ← dropLit (("/name>\n      </trkpt>\n").data) p3.2
  return ((latV, lonV, String.mk (unescapeXml p3.1)), cs4)

/-- Read the list of `trkpt` elements (fuel is a termination device). -/
def readTrkpts : Nat → List Char → Option (List (ℚ × ℚ × String) × List Char)
  | 0, _ => none
  | fuel + 1, cs =>
    if isPrefix (("      <trkpt lat=\"").data) cs then
      (readTrkpt cs).bind (fun tr =>
        (readTrkpts fuel tr.2).bind (fun tsr => some (tr.1 :: tsr.1, tsr.2)))
    else some ([], cs)

/-- Conformant reader for the document shape `generateGpx` emits: the
prolog and the one `gpx` root, the one `trk` with its name, the one
`trkseg` with its points, the closing tags, and nothing afterwards.
Returns the track name and the `(lat, lon, name)` triples in document
order. -/
def parseGpx (s : String) : Option (String × List (ℚ × ℚ × String)) := do
  let cs1 ← dropLit gpxHeader s.data
  let p1 ← readUntil '<' cs1
  let cs2 ← dropLit (("/name>\n    <trkseg>\n").data) p1.2
  let p2 ← readTrkpts (cs2.length + 1) cs2
  let cs3 ← dropLit gpxFooter p2.2
  if cs3.isEmpty then return (String.mk (unescapeXml p1.1), p2.1) else none

/-! ### Ambient state (for the purity claims) -/

/-- Ambient mutable world visible to the library: the clock read by
`new Date()`. Fields model the raw `Date` getters. -/
structure Env where
  year : Nat
  month : Nat
  day : Nat
  hours : Nat
  minutes : Nat
  seconds : Nat

deriving DecidableEq

/-- `String(x).padStart(2, "0")`. -/
def padTwo (n : Nat) : List Char :=
  List.replicate (2 - (natStr n).length) '0' ++ natStr n

/-- Model of `getTimestamp` (lib.ts lines 32-41): this function genuinely
reads the ambient clock. -/
def getTimestampE (e : Env) : String :=
  String.mk (natStr e.year ++ padTwo (e.month + 1) ++ padTwo e.day ++ ['-'] ++
    padTwo e.hours ++ padTwo e.minutes ++ padTwo e.seconds)

/-- Worldly embedding of `parseGoogleMapsUrl`: its body contains no read
of ambient state, so the embedding ignores the world. -/
def parseGoogleMapsUrlE (_e : Env) (url : String) : Except JsError RouteData :=
  parseGoogleMapsUrl url

/-- Worldly embedding of `generateGpx`: its body contains no read of
ambient state, so the embedding ignores the world. -/
def generateGpxE (_e : Env) (routeData : RouteData) (customRouteName : Option String) : String :=
  generateGpx routeData customRouteName

/-! ### Character-level meaning of `escapeXml` -/

/-- Claim-side per-character escape (spec 4.2): each of the five reserved
characters maps to exactly one entity — the ampersand to exactly `&amp;`,
never `&amp;amp;` — and every other character is unchanged. -/
def escCharClaim (c : Char) : List Char :=
  if c = '&' then ("&amp;").data
  else if c = '<' then ("&lt;").data
  else if c = '>' then ("&gt;").data
  else if c = '"' then ("&quot;").data
  else if c = apos then ("&apos;").data
  else [c]

/-! ### Claim-side GPX document builders (spec 4.2 / 6) -/

/-- Render of the claim-side document structure: exactly one `gpx` root
with the creator and schema attributes, one `trk` with one `name`, one
`trkseg` with one `trkpt` per point in input order, each `trkpt` carrying
`lat` and `lon` attributes and one `name` child, names escaped. -/
def gpxRender (trkName : String) (pts : List (ℚ × ℚ × String)) : String :=
  String.mk (gpxHeader ++ escapeXml trkName.data ++ gpxMid ++
    (pts.map (fun p =>
      ("      <trkpt lat=\"").data ++ ratToDecString p.1 ++ ("\" lon=\"").data ++
      ratToDecString p.2.1 ++ ("\">\n        <name>").data ++
      escapeXml p.2.2.data ++ ("</name>\n      </trkpt>\n").data)).flatten ++ gpxFooter)

/-- The claim names, worded as the spec states them: the track name is the
override if provided else the route name; a point name is the waypoint
name if the waypoint has one, else the waypoint literal. -/
def gpxClaimOrig (rd : RouteData) (o : Option String) : String :=
  gpxRender (o.getD rd.routeName)
    (mapIdxFrom (fun i w => (w.lat, w.lng,
      match w.name with
      | some n => n
      | none => String.mk (("Waypoint ").data ++ natStr (i + 1)))) 0 rd.waypoints)

/-- The claim names amended for JS truthiness: an empty override and an
empty waypoint name fall back exactly like a missing one. -/
def gpxClaimAmended (rd : RouteData) (o : Option String) : String :=
  gpxRender (jsOrStr o rd.routeName)
    (mapIdxFrom (fun i w => (w.lat, w.lng,
      nameOr w (String.mk (("Waypoint ").data ++ natStr (i + 1))))) 0 rd.waypoints)

/-! ### Claim-side definitions for the extraction claims -/

deriving instance DecidableEq for Except

/-- Claim-side name rule for data-parameter waypoints, as C1 words it. -/
def claimDataName (i n : Nat) (names : List String) : String :=
  if i < names.length then names.getD i ""
  else if i = 0 then "Start"
  else if i = n - 1 then "End"
  else String.mk (("Via ").data ++ natStr i)

/-- Claim-side Strategy 1 (C3), parameterized by the segment-keeping
rule: kept segments of coordinate-pair shape become unnamed waypoints,
every other kept segment is appended (plus signs as spaces,
percent-decoded) to the location names, in order. -/
def strat1Claim (keep : List Char → Bool) (segs : List (List Char)) :
    Except JsError (List Coordinate × List String) :=
  (segs.filter keep).foldlM (fun acc loc =>
    match segCoord loc with
    | some (la, lo) => .ok (acc.1 ++ [⟨la, lo, none⟩], acc.2)
    | none =>
      match decodeURIComponentL (loc.map (fun c => if c = '+' then ' ' else c)) with
      | some nm => .ok (acc.1, acc.2 ++ [String.mk nm])
      | none => .error .uriError) (([], []) : List Coordinate × List String)

/-- Claim-side route-name rule (C4): first-to-last of the location names
when there are at least two of them, else first-to-last waypoint names
with the `Start` and `End` fallbacks when at least two waypoints remain,
else the default literal. -/
def routeNameClaim (names : List String) (wps : List Coordinate) : String :=
  if 2 ≤ names.length then names.headD "" ++ " to " ++ names.getLastD ""
  else if 2 ≤ wps.length then
    nameOr (wps.headD ⟨0, 0, none⟩) "Start" ++ " to " ++
      nameOr (wps.getLastD ⟨0, 0, none⟩) "End"
  else "Google Maps Route"

/-- Claim-side slugify pipeline (C8), worded as the spec states it:
lower-case, trim, strip characters other than word characters,
whitespace and hyphens, collapse runs of whitespace, underscores and
hyphens into one hyphen, trim leading and trailing hyphens. -/
def slugifyClaim (text : String) : String :=
  let s1 := text.data.map jsToLower
  let s2 := jsTrim s1
  let s3 := s2.filter (fun c => isWordChar c || jsWhitespace c || decide (c = '-'))
  let s4 := collapseRuns (fun c => jsWhitespace c || decide (c = '_') || decide (c = '-')) false s3
  String.mk (stripEdgeHyphens s4)

theorem digitsVal_natDigitsAux : ∀ f n, n ≤ f → digitsVal (natDigitsAux f n) = n := by
  intro f
  induction f with
  | zero => intro n hn; interval_cases n; rfl
  | succ f ih =>
    intro n hn
    unfold natDigitsAux
    by_cases h0 : n = 0
    · simp [h0, digitsVal]
    · simp only [h0, if_false, digitsVal]
      have hdiv : n / 10 ≤ f := by
        have h1 : n / 10 < n := Nat.div_lt_self (Nat.pos_of_ne_zero h0) (by norm_num)
        omega
      rw [ih _ hdiv]
      omega

theorem digitsVal_natDigits (n : Nat) : digitsVal (natDigits n) = n :=
  digitsVal_natDigitsAux n n (Nat.le_refl n)

theorem natDigitsAux_lt_ten : ∀ f n d, d ∈ natDigitsAux f n → d < 10 := by
  intro f
  induction f with
  | zero => intro n d h; simp [natDigitsAux] at h
  | succ f ih =>
    intro n d h
    unfold natDigitsAux at h
    by_cases h0 : n = 0
    · simp [h0] at h
    · simp only [h0, if_false, List.mem_cons] at h
      rcases h with h | h
      · subst h; exact Nat.mod_lt _ (by norm_num)
      · exact ih _ _ h

theorem msdVal_append_digit (cs : List Char) (c : Char) :
    msdVal (cs ++ [c]) = msdVal cs * 10 + digitVal c := by
  simp [msdVal, List.foldl_append]

theorem msdVal_reverse_digits :
    ∀ ds : List Nat, (∀ d ∈ ds, d < 10) →
      msdVal ((ds.reverse.map digitChar)) = digitsVal ds := by
  intro ds
  induction ds with
  | nil => intro _; rfl
  | cons d ds ih =>
    intro h
    have hd : d < 10 := h d (List.mem_cons_self d ds)
    simp only [List.reverse_cons, List.map_append, List.map_cons, List.map_nil]
    rw [msdVal_append_digit, ih (fun x hx => h x (List.mem_cons_of_mem d hx))]
    have hv : digitVal (digitChar d) = d := by
      interval_cases d <;> decide
    rw [hv]
    simp only [digitsVal]
    omega

theorem msdVal_rawNatChars (n : Nat) : msdVal (rawNatChars n) = n := by
  unfold rawNatChars
  rw [msdVal_reverse_digits (natDigits n) (fun d hd => natDigitsAux_lt_ten n n d hd)]
  exact digitsVal_natDigits n

theorem msdVal_natStr (n : Nat) : msdVal (natStr n) = n := by
  unfold natStr
  by_cases h : n = 0
  · subst h; rfl
  · simp only [h, if_false]; exact msdVal_rawNatChars n

theorem isDigitC_digitChar {d : Nat} (hd : d < 10) : isDigitC (digitChar d) = true := by
  interval_cases d <;> decide

theorem mem_rawNatChars_isDigit {n : Nat} {c : Char} (h : c ∈ rawNatChars n) :
    isDigitC c = true := by
  unfold rawNatChars at h
  rcases List.mem_map.mp h with ⟨d, hd, rfl⟩
  exact isDigitC_digitChar (natDigitsAux_lt_ten n n d (List.mem_reverse.mp hd))

theorem mem_natStr_isDigit {n : Nat} {c : Char} (h : c ∈ natStr n) :
    isDigitC c = true := by
  unfold natStr at h
  by_cases h0 : n = 0
  · subst h0; simp at h; subst h; rfl
  · simp only [h0, if_false] at h; exact mem_rawNatChars_isDigit h

theorem isPrefix_append (p r : List Char) : isPrefix p (p ++ r) = true := by
  induction p with
  | nil => rfl
  | cons c cs ih => simp [isPrefix, ih]

theorem decExp_dvd {d k : Nat} (h : decExp d = some k) : d ∣ 10 ^ k := by
  have := List.find?_some h
  exact Nat.dvd_of_mod_eq_zero (by simpa using this)

theorem msdVal_nil : msdVal [] = 0 := rfl

theorem takeWhile_all_append (p : Char → Bool) :
    ∀ A B : List Char, (∀ c ∈ A, p c = true) → (∀ c, B.head? = some c → p c = false) →
      (A ++ B).takeWhile p = A ∧ (A ++ B).dropWhile p = B := by
  intro A
  induction A with
  | nil =>
    intro B _ hB
    cases B with
    | nil => exact ⟨rfl, rfl⟩
    | cons c t =>
      have := hB c rfl
      constructor
      · simp [List.takeWhile, this]
      · simp [List.dropWhile, this]
  | cons a A ih =>
    intro B hA hB
    have ha : p a = true := hA a (List.mem_cons_self a A)
    have := ih B (fun c hc => hA c (List.mem_cons_of_mem a hc)) hB
    constructor
    · simp [List.takeWhile, ha, this.1]
    · simp [List.dropWhile, ha, this.2]

theorem msdVal_replicate_zero_append (z : Nat) (l : List Char) :
    msdVal (List.replicate z '0' ++ l) = msdVal l := by
  induction z with
  | zero => rfl
  | succ z ih =>
    have step : msdVal (List.replicate (z + 1) '0' ++ l) =
        msdVal (List.replicate z '0' ++ l) := by
      simp only [List.replicate_succ, List.cons_append, msdVal, List.foldl_cons]
      rfl
    rw [step, ih]

theorem natDigitsAux_length_le :
    ∀ f m j, m ≤ f → m < 10 ^ j → (natDigitsAux f m).length ≤ j := by
  intro f
  induction f with
  | zero => intro m j hm _; interval_cases m; simp [natDigitsAux]
  | succ f ih =>
    intro m j hm hj
    unfold natDigitsAux
    by_cases h0 : m = 0
    · simp [h0]
    · simp only [h0, if_false, List.length_cons]
      cases j with
      | zero => omega
      | succ j =>
        have hdiv : m / 10 ≤ f := by
          have : m / 10 < m := Nat.div_lt_self (Nat.pos_of_ne_zero h0) (by norm_num)
          omega
        have hlt : m / 10 < 10 ^ j := by
          rw [Nat.div_lt_iff_lt_mul (by norm_num)]
          calc m < 10 ^ (j + 1) := hj
          _ = 10 ^ j * 10 := by ring
        have := ih (m / 10) j hdiv hlt
        omega

theorem padZeros_length {k m : Nat} (h : m < 10 ^ k) : (padZeros k m).length = k := by
  unfold padZeros
  have hle : (rawNatChars m).length ≤ k := by
    unfold rawNatChars natDigits
    simpa using natDigitsAux_length_le m m k (Nat.le_refl m) h
  simp [List.length_append, List.length_replicate]
  omega

theorem mem_padZeros_isDigit {k m : Nat} {c : Char} (h : c ∈ padZeros k m) :
    isDigitC c = true := by
  unfold padZeros at h
  rcases List.mem_append.mp h with h | h
  · have := List.eq_of_mem_replicate h
    subst this; rfl
  · exact mem_rawNatChars_isDigit h

theorem msdVal_padZeros (k m : Nat) : msdVal (padZeros k m) = m := by
  unfold padZeros
  rw [msdVal_replicate_zero_append]
  exact msdVal_rawNatChars m

theorem natStr_ne_nil (n : Nat) : natStr n ≠ [] := by
  unfold natStr
  by_cases h : n = 0
  · simp [h]
  · simp only [h, if_false]
    unfold rawNatChars natDigits
    cases hf : n with
    | zero => exact absurd hf h
    | succ f =>
      unfold natDigitsAux
      simp [h]

theorem natStr_head_digit {n : Nat} {c : Char} (h : (natStr n).head? = some c) :
    isDigitC c = true := by
  cases hs : natStr n with
  | nil => rw [hs] at h; exact absurd h (by simp)
  | cons a t =>
    rw [hs] at h
    have hac : a = c := by simpa using h
    apply mem_natStr_isDigit (n := n)
    rw [hs, ← hac]
    exact List.mem_cons_self a t

theorem isEmpty_false_of_ne_nil {l : List Char} (h : l ≠ []) : l.isEmpty = false := by
  cases l with
  | nil => exact absurd rfl h
  | cons a t => rfl

/-- Unsigned scan of a digit block followed by a block that starts with
neither a digit nor a dot. -/
theorem parseUnsigned_digits (D B : List Char) (hD : ∀ c ∈ D, isDigitC c = true)
    (hne : D ≠ []) (hB : ∀ c, B.head? = some c → isDigitC c = false ∧ c ≠ '.') :
    parseUnsigned (D ++ B) = some ((msdVal D : ℚ), B) := by
  obtain ⟨ht, hd⟩ := takeWhile_all_append isDigitC D B hD (fun c hc => (hB c hc).1)
  have hdot : ¬ (B.head? = some '.') := by
    intro hcontr
    exact absurd rfl (hB _ hcontr).2
  unfold parseUnsigned
  rw [ht, hd, if_neg (by simp [isEmpty_false_of_ne_nil hne]), if_neg hdot, if_neg hdot]
  simp [msdVal_nil]

/-- Unsigned scan of a digit block, a dot, a fraction digit block, and a
block that does not start with a digit. -/
theorem parseUnsigned_decimal (D F B : List Char) (hD : ∀ c ∈ D, isDigitC c = true)
    (hne : D ≠ []) (hF : ∀ c ∈ F, isDigitC c = true)
    (hB : ∀ c, B.head? = some c → isDigitC c = false) :
    parseUnsigned (D ++ '.' :: (F ++ B)) =
      some ((msdVal D : ℚ) + (msdVal F : ℚ) / (10 : ℚ) ^ F.length, B) := by
  obtain ⟨ht, hd⟩ := takeWhile_all_append isDigitC D ('.' :: (F ++ B)) hD
    (by intro c hc; simp at hc; subst hc; decide)
  obtain ⟨htF, hdF⟩ := takeWhile_all_append isDigitC F B hF hB
  unfold parseUnsigned
  rw [ht, hd, if_neg (by simp [isEmpty_false_of_ne_nil hne])]
  rw [if_pos (by simp), if_pos (by simp)]
  simp only [List.tail_cons]
  rw [htF, hdF]

theorem parseSignedDec_eq_unsigned {cs : List Char} (h : ¬ (cs.head? = some '-')) :
    parseSignedDec cs = parseUnsigned cs := by
  unfold parseSignedDec
  rw [if_neg h]

theorem parseSignedDec_cons_neg (cs : List Char) :
    parseSignedDec ('-' :: cs) = (parseUnsigned cs).map (fun p => (-p.1, p.2)) := by
  unfold parseSignedDec
  rw [if_pos (by simp)]
  simp only [List.tail_cons]

theorem head_digit_ne_dash {A : List Char} (hA : ∀ c ∈ A, isDigitC c = true)
    (hne : A ≠ []) (B : List Char) : ¬ ((A ++ B).head? = some '-') := by
  cases A with
  | nil => exact absurd rfl hne
  | cons a t =>
    simp only [List.cons_append, List.head?_cons]
    intro h
    have hd : isDigitC a = true := hA a (List.mem_cons_self a t)
    have ha : a = '-' := by injection h
    rw [ha] at hd
    exact absurd hd (by decide)

/-- Round trip between the decimal printer and the numeral scanner: the
exact value survives for every rational with a finite decimal expansion. -/
theorem parseSignedDec_ratToDecString (q : ℚ) (k : Nat) (hk : decExp q.den = some k) :
    parseSignedDec (ratToDecString q) = some (q, []) := by
  have hdenpos : 0 < q.den := Nat.pos_of_ne_zero q.den_nz
  have hden : (q.den : ℚ) ≠ 0 := by positivity
  have hdvd : q.den ∣ 10 ^ k := decExp_dvd hk
  set n := q.num.natAbs * 10 ^ k / q.den with hn
  have hexact : n * q.den = q.num.natAbs * 10 ^ k := by
    rw [hn, Nat.div_mul_cancel (Dvd.dvd.mul_left hdvd _)]
  have h10 : ((10 : ℚ)) ^ k ≠ 0 := by positivity
  have habs : ((n : ℚ) / (10 : ℚ) ^ k) = (q.num.natAbs : ℚ) / (q.den : ℚ) := by
    rw [div_eq_div_iff h10 hden]
    have hc := congrArg (fun x : Nat => (x : ℚ)) hexact
    push_cast at hc
    linarith [hc]
  have hbody : parseUnsigned (if k = 0 then natStr n
      else natStr (n / 10 ^ k) ++ '.' :: padZeros k (n % 10 ^ k)) =
      some ((n : ℚ) / (10 : ℚ) ^ k, []) := by
    by_cases hk0 : k = 0
    · subst hk0
      rw [if_pos rfl]
      have := parseUnsigned_digits (natStr n) []
        (fun c hc => mem_natStr_isDigit hc) (natStr_ne_nil n) (by intro c hc; simp at hc)
      rw [List.append_nil] at this
      rw [this, msdVal_natStr]
      norm_num
    · rw [if_neg hk0]
      have hFB : padZeros k (n % 10 ^ k) = padZeros k (n % 10 ^ k) ++ [] :=
        (List.append_nil _).symm
      rw [hFB]
      rw [parseUnsigned_decimal (natStr (n / 10 ^ k)) (padZeros k (n % 10 ^ k)) []
        (fun c hc => mem_natStr_isDigit hc) (natStr_ne_nil _)
        (fun c hc => mem_padZeros_isDigit hc) (by intro c hc; simp at hc)]
      congr 2
      rw [msdVal_natStr, msdVal_padZeros,
        padZeros_length (Nat.mod_lt _ (by positivity))]
      have hdm : n / 10 ^ k * 10 ^ k + n % 10 ^ k = n := by
        have := Nat.div_add_mod n (10 ^ k)
        rw [Nat.mul_comm] at this
        exact this
      have hc := congrArg (fun x : Nat => (x : ℚ)) hdm
      push_cast at hc
      field_simp
      linarith [hc]
  have hheadne : ¬ ((if k = 0 then natStr n
      else natStr (n / 10 ^ k) ++ '.' :: padZeros k (n % 10 ^ k)).head? = some '-') := by
    by_cases hk0 : k = 0
    · rw [if_pos hk0]
      have := head_digit_ne_dash (fun c hc => mem_natStr_isDigit hc) (natStr_ne_nil n) []
      rwa [List.append_nil] at this
    · rw [if_neg hk0]
      exact head_digit_ne_dash (fun c hc => mem_natStr_isDigit hc) (natStr_ne_nil _) _
  have hval : ∀ hs : ¬ (q.num < 0), ((n : ℚ) / (10 : ℚ) ^ k) = q := by
    intro hs
    rw [habs]
    have h1 : |q.num| = q.num := abs_of_nonneg (le_of_not_lt hs)
    have h2 : ((q.num.natAbs : ℚ)) = (q.num : ℚ) := by
      rw [Int.cast_natAbs, h1]
    rw [h2, Rat.num_div_den]
  have hvalneg : ∀ hs : q.num < 0, (-((n : ℚ) / (10 : ℚ) ^ k)) = q := by
    intro hs
    rw [habs]
    have h1 : |q.num| = -q.num := abs_of_neg hs
    have h2 : ((q.num.natAbs : ℚ)) = -(q.num : ℚ) := by
      rw [Int.cast_natAbs, h1]
      push_cast
      ring
    rw [h2, neg_div, neg_neg, Rat.num_div_den]
  have hunf : ratToDecString q =
      (if q.num < 0 then
        '-' :: (if k = 0 then natStr n else natStr (n / 10 ^ k) ++ '.' :: padZeros k (n % 10 ^ k))
      else (if k = 0 then natStr n else natStr (n / 10 ^ k) ++ '.' :: padZeros k (n % 10 ^ k))) := by
    unfold ratToDecString
    rw [hk]
    rfl
  rw [hunf]
  by_cases hsign : q.num < 0
  · rw [if_pos hsign, parseSignedDec_cons_neg, hbody]
    simp only [Option.map_some']
    rw [hvalneg hsign]
  · rw [if_neg hsign, parseSignedDec_eq_unsigned hheadne, hbody, hval hsign]

theorem replaceChar_append (c : Char) (r a b : List Char) :
    replaceChar c r (a ++ b) = replaceChar c r a ++ replaceChar c r b := by
  simp [replaceChar]

theorem escapeXml_append (a b : List Char) :
    escapeXml (a ++ b) = escapeXml a ++ escapeXml b := by
  simp [escapeXml, replaceChar_append]

theorem escapeXml_single (x : Char) : escapeXml [x] = escCharClaim x := by
  by_cases h1 : x = '&'
  · subst h1; rfl
  · by_cases h2 : x = '<'
    · subst h2; rfl
    · by_cases h3 : x = '>'
      · subst h3; rfl
      · by_cases h4 : x = '"'
        · subst h4; rfl
        · by_cases h5 : x = apos
          · subst h5; rfl
          · simp [escapeXml, replaceChar, escCharClaim, h1, h2, h3, h4, h5]

/-- Character-level form of the escaping chain: each character of the
input contributes exactly its claim-side escape, independently. -/
theorem escapeXml_eq_flatMap (s : List Char) :
    escapeXml s = (s.map escCharClaim).flatten := by
  induction s with
  | nil => rfl
  | cons x t ih =>
    have hx : x :: t = [x] ++ t := rfl
    rw [hx, escapeXml_append, escapeXml_single, ih]
    simp

theorem not_lt_mem_escCharClaim {c x : Char} (hx : x ∈ escCharClaim c) : x ≠ '<' := by
  unfold escCharClaim at hx
  by_cases h1 : c = '&'
  · rw [if_pos h1] at hx; simp at hx; rcases hx with h | h | h | h | h <;> subst h <;> decide
  · rw [if_neg h1] at hx
    by_cases h2 : c = '<'
    · rw [if_pos h2] at hx; simp at hx; rcases hx with h | h | h | h <;> subst h <;> decide
    · rw [if_neg h2] at hx
      by_cases h3 : c = '>'
      · rw [if_pos h3] at hx; simp at hx; rcases hx with h | h | h | h <;> subst h <;> decide
      · rw [if_neg h3] at hx
        by_cases h4 : c = '"'
        · rw [if_pos h4] at hx; simp at hx
          rcases hx with h | h | h | h | h | h <;> subst h <;> decide
        · rw [if_neg h4] at hx
          by_cases h5 : c = apos
          · rw [if_pos h5] at hx; simp at hx
            rcases hx with h | h | h | h | h | h <;> subst h <;> decide
          · rw [if_neg h5] at hx
            simp at hx
            subst hx
            exact h2

theorem not_lt_mem_escapeXml {s : List Char} {x : Char} (hx : x ∈ escapeXml s) : x ≠ '<' := by
  rw [escapeXml_eq_flatMap] at hx
  rcases List.mem_flatten.mp hx with ⟨l, hl, hxl⟩
  rcases List.mem_map.mp hl with ⟨c, _, rfl⟩
  exact not_lt_mem_escCharClaim hxl

/-! ### Entity decoding inverts escaping -/

theorem fuel_step {E rem : List Char} {f : Nat} (h : (E ++ rem).length ≤ f + 1)
    (hE : 1 ≤ E.length) : rem.length ≤ f := by
  rw [List.length_append] at h
  omega

theorem unescapeAux_escape :
    ∀ s : List Char, ∀ f, ((s.map escCharClaim).flatten).length ≤ f →
      unescapeAux f ((s.map escCharClaim).flatten) = s := by
  intro s
  induction s with
  | nil =>
    intro f _
    cases f with
    | zero => rfl
    | succ f => rfl
  | cons c t ih =>
    intro f hf
    simp only [List.map_cons, List.flatten_cons] at hf ⊢
    by_cases h1 : c = '&'
    · subst h1
      rw [show escCharClaim '&' = '&' :: ("amp;").data from rfl] at hf ⊢
      cases f with
      | zero => simp at hf
      | succ f =>
        rw [List.cons_append, unescapeAux, if_pos rfl,
          if_pos (isPrefix_append _ _)]
        rw [show ((("amp;").data ++ (t.map escCharClaim).flatten).drop 4) =
          (t.map escCharClaim).flatten from rfl]
        rw [ih f (fuel_step hf (by simp))]
    · by_cases h2 : c = '<'
      · subst h2
        rw [show escCharClaim '<' = '&' :: ("lt;").data from rfl] at hf ⊢
        cases f with
        | zero => simp at hf
        | succ f =>
          rw [List.cons_append, unescapeAux, if_pos rfl,
            if_neg (by simp [isPrefix]),
            if_pos (isPrefix_append _ _)]
          rw [show ((("lt;").data ++ (t.map escCharClaim).flatten).drop 3) =
            (t.map escCharClaim).flatten from rfl]
          rw [ih f (fuel_step hf (by simp))]
      · by_cases h3 : c = '>'
        · subst h3
          rw [show escCharClaim '>' = '&' :: ("gt;").data from rfl] at hf ⊢
          cases f with
          | zero => simp at hf
          | succ f =>
            rw [List.cons_append, unescapeAux, if_pos rfl,
              if_neg (by simp [isPrefix]),
              if_neg (by simp [isPrefix]),
              if_pos (isPrefix_append _ _)]
            rw [show ((("gt;").data ++ (t.map escCharClaim).flatten).drop 3) =
              (t.map escCharClaim).flatten from rfl]
            rw [ih f (fuel_step hf (by simp))]
        · by_cases h4 : c = '"'
          · subst h4
            rw [show escCharClaim '"' = '&' :: ("quot;").data from rfl] at hf ⊢
            cases f with
            | zero => simp at hf
            | succ f =>
              rw [List.cons_append, unescapeAux, if_pos rfl,
                if_neg (by simp [isPrefix]),
                if_neg (by simp [isPrefix]),
                if_neg (by simp [isPrefix]),
                if_pos (isPrefix_append _ _)]
              rw [show ((("quot;").data ++ (t.map escCharClaim).flatten).drop 5) =
                (t.map escCharClaim).flatten from rfl]
              rw [ih f (fuel_step hf (by simp))]
          · by_cases h5 : c = apos
            · subst h5
              rw [show escCharClaim apos = '&' :: ("apos;").data from rfl] at hf ⊢
              cases f with
              | zero => simp at hf
              | succ f =>
                rw [List.cons_append, unescapeAux, if_pos rfl,
                  if_neg (by simp [isPrefix]),
                  if_neg (by simp [isPrefix]),
                  if_neg (by simp [isPrefix]),
                  if_neg (by simp [isPrefix]),
                  if_pos (isPrefix_append _ _)]
                rw [show ((("apos;").data ++ (t.map escCharClaim).flatten).drop 5) =
                  (t.map escCharClaim).flatten from rfl]
                rw [ih f (fuel_step hf (by simp))]
            · rw [show escCharClaim c = [c] from by
                simp [escCharClaim, h1, h2, h3, h4, h5]] at hf ⊢
              cases f with
              | zero => simp at hf
              | succ f =>
                rw [List.singleton_append, unescapeAux, if_neg h1]
                rw [ih f (fuel_step hf (by simp))]

/-- Entity decoding inverts character-level escaping. -/
theorem unescapeXml_escapeXml (s : List Char) : unescapeXml (escapeXml s) = s := by
  rw [escapeXml_eq_flatMap, unescapeXml]
  exact unescapeAux_escape s _ (Nat.le_refl _)

/-! ### Helper lemmas for indexed maps -/

theorem map_mapIdxFrom (g : β → γ) (f : Nat → α → β) :
    ∀ (i : Nat) (l : List α),
      (mapIdxFrom f i l).map g = mapIdxFrom (fun j a => g (f j a)) i l := by
  intro i l
  induction l generalizing i with
  | nil => rfl
  | cons a t ih => simp [mapIdxFrom, ih]

theorem mapIdxFrom_congr (f g : Nat → α → β) :
    ∀ (l : List α) (i : Nat), (∀ j a, a ∈ l → f j a = g j a) →
      mapIdxFrom f i l = mapIdxFrom g i l := by
  intro l
  induction l with
  | nil => intro i _; rfl
  | cons a t ih =>
    intro i h
    simp only [mapIdxFrom]
    rw [h i a (List.mem_cons_self a t), ih (i + 1) (fun j b hb => h j b (List.mem_cons_of_mem a hb))]

theorem mapIdxFrom_const (g : α → β) :
    ∀ (l : List α) (i : Nat), mapIdxFrom (fun _ a => g a) i l = l.map g := by
  intro l
  induction l with
  | nil => intro i; rfl
  | cons a t ih => intro i; simp [mapIdxFrom, ih]

/-! ### Reader helper lemmas -/

theorem dropLit_append (l r : List Char) : dropLit l (l ++ r) = some r := by
  unfold dropLit
  rw [if_pos (isPrefix_append l r)]
  congr 1
  exact List.drop_left l r

theorem readUntil_append (stop : Char) (A B : List Char) (hA : ∀ c ∈ A, ¬ (c = stop)) :
    readUntil stop (A ++ stop :: B) = some (A, B) := by
  obtain ⟨ht, hd⟩ := takeWhile_all_append (fun c => !(decide (c = stop))) A (stop :: B)
    (by intro c hc; simp [hA c hc]) (by intro c hc; simp at hc; simp [hc])
  unfold readUntil
  rw [ht, hd]

theorem digit_ne_quote {c : Char} (h : isDigitC c = true) : ¬ (c = '"') := by
  intro hc
  rw [hc] at h
  exact absurd h (by decide)

theorem mem_ratToDecString_ne_quote {q : ℚ} {c : Char} (h : c ∈ ratToDecString q) :
    ¬ (c = '"') := by
  unfold ratToDecString ratToDecStringAux at h
  cases hk : decExp q.den with
  | some k =>
    rw [hk] at h
    simp only at h
    have hmem : c = '-' ∨ c ∈ (if k = 0 then natStr (q.num.natAbs * 10 ^ k / q.den)
        else natStr (q.num.natAbs * 10 ^ k / q.den / 10 ^ k) ++
          '.' :: padZeros k (q.num.natAbs * 10 ^ k / q.den % 10 ^ k)) := by
      by_cases hs : q.num < 0
      · rw [if_pos hs] at h
        rcases List.mem_cons.mp h with h | h
        · exact Or.inl h
        · exact Or.inr h
      · rw [if_neg hs] at h
        exact Or.inr h
    rcases hmem with h | h
    · subst h; decide
    · by_cases hk0 : k = 0
      · rw [if_pos hk0] at h
        exact digit_ne_quote (mem_natStr_isDigit h)
      · rw [if_neg hk0] at h
        rcases List.mem_append.mp h with h | h
        · exact digit_ne_quote (mem_natStr_isDigit h)
        · rcases List.mem_cons.mp h with h | h
          · subst h; decide
          · exact digit_ne_quote (mem_padZeros_isDigit h)
  | none =>
    rw [hk] at h
    simp only at h
    rcases List.mem_append.mp h with h | h
    · rcases List.mem_append.mp h with h | h
      · by_cases hs : q.num < 0
        · rw [if_pos hs] at h
          simp at h
          subst h; decide
        · rw [if_neg hs] at h
          simp at h
      · exact digit_ne_quote (mem_natStr_isDigit h)
    · rcases List.mem_cons.mp h with h | h
      · subst h; decide
      · exact digit_ne_quote (mem_natStr_isDigit h)

theorem parseNumAll_ratToDecString {q : ℚ} (h : (decExp q.den).isSome) :
    parseNumAll (ratToDecString q) = some q := by
  obtain ⟨k, hk⟩ := Option.isSome_iff_exists.mp h
  unfold parseNumAll
  rw [parseSignedDec_ratToDecString q k hk]

/-! ### Reading back the emitted document -/

theorem obind_some (a : α) (f : α → Option β) : ((some a : Option α) >>= f) = f a := rfl

theorem obind_some2 (a : α) (f : α → Option β) : (some a).bind f = f a := rfl

theorem dropLit_self (l : List Char) : dropLit l l = some [] := by
  have h := dropLit_append l []
  rwa [List.append_nil] at h

theorem mk_data_eq (s : String) : String.mk s.data = s := rfl

/-- Reading one emitted `trkpt` block recovers the waypoint. -/
theorem readTrkpt_block (i : Nat) (w : Coordinate) (rest : List Char)
    (hlat : (decExp w.lat.den).isSome) (hlng : (decExp w.lng.den).isSome) :
    readTrkpt (trkptBlock i w ++ rest) =
      some ((w.lat, w.lng, nameOrWaypoint w i), rest) := by
  have hblock : trkptBlock i w ++ rest =
      ("      <trkpt lat=\"").data ++ (ratToDecString w.lat ++ '"' ::
        ((" lon=\"").data ++ (ratToDecString w.lng ++ '"' ::
          ((">\n        <name>").data ++ (escapeXml (nameOrWaypoint w i).data ++ '<' ::
            (("/name>\n      </trkpt>\n").data ++ rest)))))) := by
    simp [trkptBlock, List.append_assoc, List.cons_append,
      show ("\" lon=\"").data = '"' :: ((" lon=\"").data) from rfl,
      show ("\">\n        <name>").data = '"' :: ((">\n        <name>").data) from rfl,
      show ("</name>\n      </trkpt>\n").data = '<' :: (("/name>\n      </trkpt>\n").data)
        from rfl]
  rw [hblock]
  unfold readTrkpt
  rw [dropLit_append]
  rw [obind_some]
  rw [readUntil_append _ _ _ (fun c hc => mem_ratToDecString_ne_quote hc)]
  rw [obind_some]
  simp only
  rw [parseNumAll_ratToDecString hlat, obind_some, dropLit_append, obind_some,
    readUntil_append _ _ _ (fun c hc => mem_ratToDecString_ne_quote hc), obind_some]
  simp only
  rw [parseNumAll_ratToDecString hlng, obind_some, dropLit_append, obind_some,
    readUntil_append _ _ _ (fun c hc => not_lt_mem_escapeXml hc), obind_some]
  simp only
  rw [dropLit_append, obind_some, unescapeXml_escapeXml, mk_data_eq]
  rfl

/-- Reading the emitted block list recovers all waypoints (the fuel bound
is satisfied whenever it exceeds the text length). -/
theorem readTrkpts_blocks :
    ∀ (wps : List Coordinate) (i : Nat) (B : List Char) (fuel : Nat),
      ¬ (isPrefix (("      <trkpt lat=\"").data) B = true) →
      (∀ w ∈ wps, (decExp w.lat.den).isSome ∧ (decExp w.lng.den).isSome) →
      ((mapIdxFrom trkptBlock i wps).flatten).length < fuel →
      readTrkpts fuel ((mapIdxFrom trkptBlock i wps).flatten ++ B) =
        some (mapIdxFrom (fun j v => (v.lat, v.lng, nameOrWaypoint v j)) i wps, B) := by
  intro wps
  induction wps with
  | nil =>
    intro i B fuel hB _ hf
    cases fuel with
    | zero => exact absurd hf (by simp)
    | succ f =>
      simp only [mapIdxFrom, List.flatten_nil, List.nil_append]
      unfold readTrkpts
      rw [if_neg hB]
  | cons w wps ih =>
    intro i B fuel hB hdec hf
    cases fuel with
    | zero => exact absurd hf (by simp)
    | succ f =>
      simp only [mapIdxFrom, List.flatten_cons, List.append_assoc] at hf ⊢
      unfold readTrkpts
      rw [if_pos (by
        simp only [show trkptBlock i w =
          ("      <trkpt lat=\"").data ++ (ratToDecString w.lat ++ ("\" lon=\"").data ++
            ratToDecString w.lng ++ ("\">\n        <name>").data ++
            escapeXml (nameOrWaypoint w i).data ++ ("</name>\n      </trkpt>\n").data)
          from by simp [trkptBlock, List.append_assoc], List.append_assoc]
        exact isPrefix_append _ _)]
      rw [readTrkpt_block i w _ (hdec w (List.mem_cons_self w wps)).1
        (hdec w (List.mem_cons_self w wps)).2, obind_some2]
      have hlen : 18 ≤ (trkptBlock i w).length := by
        have h18 : ((("      <trkpt lat=\"").data).length) = 18 := rfl
        simp [trkptBlock, List.length_append, h18]
      have hf2 : ((mapIdxFrom trkptBlock (i + 1) wps).flatten).length < f := by
        rw [List.length_append] at hf
        omega
      rw [ih (i + 1) B f hB (fun v hv => hdec v (List.mem_cons_of_mem w hv)) hf2,
        obind_some2]

/-- Master round trip: the conformant reader recovers, from the emitted
document, the effective track name and one `(lat, lon, effective name)`
triple per waypoint in order. -/
theorem parseGpx_generateGpx (rd : RouteData) (o : Option String)
    (hdec : ∀ w ∈ rd.waypoints, (decExp w.lat.den).isSome ∧ (decExp w.lng.den).isSome) :
    parseGpx (generateGpx rd o) =
      some (jsOrStr o rd.routeName,
        mapIdxFrom (fun i w => (w.lat, w.lng, nameOrWaypoint w i)) 0 rd.waypoints) := by
  have hdata : (generateGpx rd o).data =
      gpxHeader ++ (escapeXml (jsOrStr o rd.routeName).data ++ ('<' ::
        ((("/name>\n    <trkseg>\n")).data ++
          ((mapIdxFrom trkptBlock 0 rd.waypoints).flatten ++ gpxFooter)))) := by
    simp [generateGpx, List.append_assoc,
      show gpxMid = '<' :: (("/name>\n    <trkseg>\n").data) from rfl]
  unfold parseGpx
  rw [hdata, dropLit_append, obind_some,
    readUntil_append _ _ _ (fun c hc => not_lt_mem_escapeXml hc), obind_some]
  simp only
  rw [dropLit_append, obind_some]
  rw [readTrkpts_blocks rd.waypoints 0 gpxFooter _ (by decide) hdec
    (by rw [List.length_append]; omega)]
  rw [obind_some]
  simp only
  rw [dropLit_self, obind_some,
    if_pos (show (List.isEmpty ([] : List Char)) = true from rfl), unescapeXml_escapeXml]
  rfl

theorem ebind_ok {ε α β : Type} (a : α) (f : α → Except ε β) :
    ((Except.ok a : Except ε α) >>= f) = f a := rfl

/-- Pointwise agreement of the code filter predicate (line 157) with the
claim wording (drop a waypoint exactly when both coordinates are zero). -/
theorem filter_valid_eq (l : List Coordinate) :
    l.filter validCoord = l.filter (fun w => !(decide (w.lat = 0) && decide (w.lng = 0))) := by
  apply List.filter_congr
  intro w _
  by_cases h1 : w.lat = 0
  · by_cases h2 : w.lng = 0
    · simp [validCoord, h1, h2]
    · simp [validCoord, h1, h2]
  · simp [validCoord, h1]

theorem claimDataName_eq_synthName (i n : Nat) (names : List String) :
    claimDataName i n names = synthName i n names := by
  unfold claimDataName synthName
  by_cases h : i < names.length
  · rw [if_pos h]
    cases hg : names.get? i with
    | none =>
      exact absurd (List.get?_eq_none.mp hg) (by omega)
    | some nm =>
      rw [List.getD_eq_get?, hg]
      rfl
  · rw [if_neg h]
    cases hg : names.get? i with
    | none => rfl
    | some nm =>
      have := List.get?_eq_some.mp hg
      exact absurd this.1 (by omega)

theorem replaceClass_empty_filter (cls : Char → Bool) (l : List Char) :
    replaceClass cls [] l = l.filter (fun c => !cls c) := by
  induction l with
  | nil => rfl
  | cons c t ih =>
    simp only [replaceClass, List.map_cons, List.flatten_cons, List.filter_cons] at ih ⊢
    by_cases h : cls c
    · rw [if_pos h]
      simp only [h, Bool.not_true, Bool.false_eq_true, if_false, List.nil_append]
      exact ih
    · rw [if_neg h]
      simp only [h, Bool.not_false, if_true, List.singleton_append]
      rw [ih]

/-- A non-empty string has a non-empty character list. -/
theorem string_ne_data {n : String} (h : ¬ (n = "")) : n.data ≠ [] := by
  intro hc
  apply h
  have hn : n = String.mk n.data := rfl
  rw [hn, hc]

theorem jsTruthy_some {d : String} (h : d.data ≠ []) : jsTruthy (some d) = true := by
  simp [jsTruthy, isEmpty_false_of_ne_nil h]

/-! ### Claim theorems -/

/-- C6: every route name and waypoint name inserted into the serialized
XML is escaped for exactly the five reserved characters in the source
substitution order with the ampersand replaced first; character-wise,
each input character contributes exactly its one entity — an ampersand
contributes exactly `&amp;` and never `&amp;amp;` — and all other
characters pass through unchanged. (`escapeXml` is the function
`generateGpx` applies to the route name and to every waypoint name.) -/
theorem xml_escaping_five_chars :
    (∀ s : List Char, escapeXml s = (s.map escCharClaim).flatten) ∧
    escapeXml ['&'] = ("&amp;").data :=
  ⟨escapeXml_eq_flatMap, rfl⟩

/-- C8: `slugify` is exactly the claimed pipeline (lower-case, trim,
strip characters other than word characters, whitespace and hyphens,
collapse runs of whitespace, underscores and hyphens into one hyphen,
trim edge hyphens), and the two spec examples evaluate as stated. -/
theorem slugify_pipeline :
    (∀ s : String, slugify s = slugifyClaim s) ∧
    slugify "Weekend Trip!" = "weekend-trip" ∧
    slugify "  A -- B  " = "a-b" := by
  refine ⟨?_, by decide, by decide⟩
  intro s
  unfold slugify slugifyClaim
  dsimp only
  rw [replaceClass_empty_filter]
  rw [List.filter_congr (fun c _ => Bool.not_not _)]

/-- C9: extraction and serialization are deterministic pure functions:
across any two ambient worlds (in particular any two clock readings) both
produce identical results on equal inputs, so the serialized document
embeds no clock reading or other run-dependent value. -/
theorem extract_serialize_pure (e1 e2 : Env) (url : String) (rd : RouteData)
    (o : Option String) :
    parseGoogleMapsUrlE e1 url = parseGoogleMapsUrlE e2 url ∧
    generateGpxE e1 rd o = generateGpxE e2 rd o :=
  ⟨rfl, rfl⟩

/-- C10: serializing with an empty-string name override produces the same
output as serializing with no override: the empty string is treated as an
absent override and the track name falls back to the route name. -/
theorem empty_override_fallback (rd : RouteData) :
    generateGpx rd (some "") = generateGpx rd none := rfl

/-- C2: extraction drops every candidate waypoint whose latitude and
longitude are both zero; when no waypoint survives the filter — including
when a `(0,0)` waypoint was the only candidate — extraction fails with
the extraction error instead of returning data; consequently every
returned result has a non-empty waypoint list in which every waypoint has
a non-zero latitude or longitude. -/
theorem zero_zero_filter (url : String) (cands : List Coordinate) (names : List String)
    (h : candidateWaypoints url.data = .ok (cands, names)) :
    (cands.filter (fun w => !(decide (w.lat = 0) && decide (w.lng = 0))) = [] →
      parseGoogleMapsUrl url = .error .extraction) ∧
    ∀ rd, parseGoogleMapsUrl url = .ok rd →
      rd.waypoints = cands.filter (fun w => !(decide (w.lat = 0) && decide (w.lng = 0))) ∧
      rd.waypoints ≠ [] ∧ ∀ w ∈ rd.waypoints, ¬ (w.lat = 0 ∧ w.lng = 0) := by
  have hparse : parseGoogleMapsUrl url =
      (if (cands.filter validCoord).isEmpty then .error .extraction
       else .ok ⟨cands.filter validCoord, routeNameOf names (cands.filter validCoord)⟩) := by
    unfold parseGoogleMapsUrl
    rw [h]
    simp only [parseFromCands]
  rw [← filter_valid_eq]
  by_cases he : (cands.filter validCoord).isEmpty
  · constructor
    · intro _
      rw [hparse, if_pos he]
    · intro rd hrd
      rw [hparse, if_pos he] at hrd
      exact absurd hrd (by simp)
  · constructor
    · intro hnil
      rw [hnil] at he
      exact absurd rfl he
    · intro rd hrd
      rw [hparse, if_neg he] at hrd
      have hrd2 : rd = ⟨cands.filter validCoord, routeNameOf names (cands.filter validCoord)⟩ := by
        injection hrd with h1
        exact h1.symm
      subst hrd2
      refine ⟨rfl, ?_, ?_⟩
      · intro hc
        have hc2 : cands.filter validCoord = [] := hc
        rw [hc2] at he
        exact he rfl
      · intro w hw hc
        have hw2 : w ∈ cands.filter validCoord := hw
        have hv := (List.mem_filter.mp hw2).2
        rw [validCoord] at hv
        simp [hc.1, hc.2] at hv

/-- Witness for C2 at a URL whose only candidate waypoint is `(0,0)`:
extraction fails. -/
theorem zero_zero_filter_witness :
    candidateWaypoints ("https://g/@0,0").data = .ok ([⟨0, 0, none⟩], []) ∧
    (([(⟨0, 0, none⟩ : Coordinate)].filter
        (fun w => !(decide (w.lat = 0) && decide (w.lng = 0))) = [] →
      parseGoogleMapsUrl "https://g/@0,0" = .error .extraction) ∧
     ∀ rd, parseGoogleMapsUrl "https://g/@0,0" = .ok rd →
      rd.waypoints = [(⟨0, 0, none⟩ : Coordinate)].filter
        (fun w => !(decide (w.lat = 0) && decide (w.lng = 0))) ∧
      rd.waypoints ≠ [] ∧ ∀ w ∈ rd.waypoints, ¬ (w.lat = 0 ∧ w.lng = 0)) :=
  ⟨by with_unfolding_all rfl,
    zero_zero_filter "https://g/@0,0" [⟨0, 0, none⟩] [] (by with_unfolding_all rfl)⟩

/-- C4: for every successful extraction the returned route name follows
the three-branch rule — first-to-last of the Strategy 1 location names
when there are at least two of them (whatever the waypoint count), else
first-to-last waypoint names with the `Start` and `End` fallbacks when at
least two waypoints remain after filtering, else the default literal. -/
theorem route_name_three_branch (url : String) (cands : List Coordinate)
    (names : List String) (rd : RouteData)
    (h : candidateWaypoints url.data = .ok (cands, names))
    (hok : parseGoogleMapsUrl url = .ok rd) :
    rd.routeName = routeNameClaim names rd.waypoints := by
  unfold parseGoogleMapsUrl at hok
  rw [h] at hok
  simp only [parseFromCands] at hok
  by_cases he : (cands.filter validCoord).isEmpty
  · rw [if_pos he] at hok
    exact absurd hok (by simp)
  · rw [if_neg he] at hok
    have hrd : rd = ⟨cands.filter validCoord, routeNameOf names (cands.filter validCoord)⟩ := by
      injection hok with h1
      exact h1.symm
    subst hrd
    rfl

/-- Witness for C4 at a directions URL with two location names and one
viewport waypoint. -/
theorem route_name_three_branch_witness :
    candidateWaypoints ("https://www.google.com/maps/dir/Sydney/Melbourne/@-37.8,144.9,10z").data =
      .ok ([⟨-(189 : ℚ)/5, (1449 : ℚ)/10, none⟩], ["Sydney", "Melbourne"]) ∧
    parseGoogleMapsUrl "https://www.google.com/maps/dir/Sydney/Melbourne/@-37.8,144.9,10z" =
      .ok ⟨[⟨-(189 : ℚ)/5, (1449 : ℚ)/10, none⟩], "Sydney to Melbourne"⟩ ∧
    ("Sydney to Melbourne" : String) =
      routeNameClaim ["Sydney", "Melbourne"] [⟨-(189 : ℚ)/5, (1449 : ℚ)/10, none⟩] :=
  ⟨by with_unfolding_all rfl, by with_unfolding_all rfl,
    route_name_three_branch "https://www.google.com/maps/dir/Sydney/Melbourne/@-37.8,144.9,10z"
      [⟨-(189 : ℚ)/5, (1449 : ℚ)/10, none⟩] ["Sydney", "Melbourne"]
      ⟨[⟨-(189 : ℚ)/5, (1449 : ℚ)/10, none⟩], "Sydney to Melbourne"⟩
      (by with_unfolding_all rfl) (by with_unfolding_all rfl)⟩

/-- C3 (amended): for every URL containing a directions marker, Strategy 1
considers exactly the slash-separated segments of the capture that are
non-blank (non-empty after trimming — the original claim said non-empty,
which the counterexample refutes); each segment of coordinate-pair shape
becomes an unnamed waypoint and every other segment is appended, in
order, to the location names after plus-to-space replacement and
percent-decoding, without immediately creating a waypoint. -/
theorem strat1_segments (url : String) (mid : List Char)
    (h : findDirCapture url.data = some mid) :
    strat1 url.data = strat1Claim (fun s => !(jsTrim s).isEmpty) (splitOnChar '/' mid) := by
  unfold strat1 strat1Claim
  rw [h]

/-- Witness for C3 at a directions URL with one name segment and one
coordinate segment. -/
theorem strat1_segments_witness :
    findDirCapture ("https://g/maps/dir/A/1,2/@3,4").data = some (("A/1,2/").data) ∧
    strat1 ("https://g/maps/dir/A/1,2/@3,4").data =
      strat1Claim (fun s => !(jsTrim s).isEmpty) (splitOnChar '/' (("A/1,2/").data)) :=
  ⟨by with_unfolding_all rfl,
    strat1_segments "https://g/maps/dir/A/1,2/@3,4" (("A/1,2/").data)
      (by with_unfolding_all rfl)⟩

/-- Counterexample to C3 as stated: the segment consisting of one space
is non-empty, so under the claim wording it would be percent-decoded and
appended to the location names, but the code drops it because its trim is
empty. -/
theorem strat1_segments_counterexample :
    findDirCapture ("https://g/maps/dir/ /@1,1").data = some ((" /").data) ∧
    strat1 ("https://g/maps/dir/ /@1,1").data ≠
      strat1Claim (fun s => !s.isEmpty) (splitOnChar '/' ((" /").data)) :=
  ⟨by with_unfolding_all rfl, by with_unfolding_all decide⟩

/-- C5 (amended): serialization always succeeds and produces exactly the
claimed document — one `gpx` root with creator and schema attributes, one
`trk` whose name is the override when provided and non-empty else the
route name (the original claim lacked the non-empty proviso), one
`trkseg` with exactly one `trkpt` per waypoint in input order carrying
the `lat` and `lon` attributes, each with one `name` child equal to the
waypoint name when present and non-empty, else the waypoint literal (the
original claim lacked the non-empty proviso). -/
theorem serialize_claim_structure (rd : RouteData) (o : Option String) :
    generateGpx rd o = gpxClaimAmended rd o := by
  unfold generateGpx gpxClaimAmended gpxRender
  rw [map_mapIdxFrom]
  rfl

set_option maxRecDepth 100000 in
/-- Counterexample to C5 as stated: with an empty-string override and an
empty-string waypoint name, the code falls back to the route name and the
waypoint literal, while the claim words say the provided override and the
waypoint's own name are used. -/
theorem serialize_claim_structure_counterexample :
    generateGpx ⟨[⟨1, 2, some ""⟩], "R"⟩ (some "") ≠
      gpxClaimOrig ⟨[⟨1, 2, some ""⟩], "R"⟩ (some "") := by
  with_unfolding_all decide

/-- C7 (amended): for every route whose waypoints all carry a non-empty
name (the original claim, refuted by the counterexample, also covered
nameless waypoints) and whose coordinates are finite-decimal rationals
(every JS float is one), serializing and re-parsing with the conformant
reader yields exactly the input `(lat, lon, name)` triples in order. -/
theorem roundtrip_named (rd : RouteData) (o : Option String)
    (hnames : ∀ w ∈ rd.waypoints, w.name ≠ none ∧ w.name ≠ some "")
    (hdec : ∀ w ∈ rd.waypoints, (decExp w.lat.den).isSome ∧ (decExp w.lng.den).isSome) :
    (parseGpx (generateGpx rd o)).map (fun r => r.2.map (fun t => (t.1, t.2.1, some t.2.2))) =
      some (rd.waypoints.map (fun w => (w.lat, w.lng, w.name))) := by
  rw [parseGpx_generateGpx rd o hdec]
  simp only [Option.map_some']
  congr 1
  rw [map_mapIdxFrom]
  have hpt : mapIdxFrom (fun j w => (w.lat, w.lng, some (nameOrWaypoint w j))) 0 rd.waypoints =
      mapIdxFrom (fun _ w => (w.lat, w.lng, w.name)) 0 rd.waypoints := by
    apply mapIdxFrom_congr
    intro j w hw
    obtain ⟨hn1, hn2⟩ := hnames w hw
    cases hname : w.name with
    | none => exact absurd hname hn1
    | some n =>
      have hne : ¬ (n = "") := by
        intro hc
        rw [hc] at hname
        exact hn2 hname
      have hdat : n.data.isEmpty = false := isEmpty_false_of_ne_nil (string_ne_data hne)
      unfold nameOrWaypoint nameOr jsOrStr
      rw [hname]
      simp [hdat]
  rw [hpt, mapIdxFrom_const]

set_option maxRecDepth 100000 in
/-- Witness for C7 at a two-waypoint route with named waypoints and
decimal coordinates. -/
theorem roundtrip_named_witness :
    ((∀ w ∈ ([⟨1, 2, some "A"⟩, ⟨-(5 : ℚ)/4, 3, some "B"⟩] : List Coordinate),
        w.name ≠ none ∧ w.name ≠ some "") ∧
     (∀ w ∈ ([⟨1, 2, some "A"⟩, ⟨-(5 : ℚ)/4, 3, some "B"⟩] : List Coordinate),
        (decExp w.lat.den).isSome ∧ (decExp w.lng.den).isSome)) ∧
    (parseGpx (generateGpx ⟨[⟨1, 2, some "A"⟩, ⟨-(5 : ℚ)/4, 3, some "B"⟩], "R"⟩ none)).map
        (fun r => r.2.map (fun t => (t.1, t.2.1, some t.2.2))) =
      some (([⟨1, 2, some "A"⟩, ⟨-(5 : ℚ)/4, 3, some "B"⟩] : List Coordinate).map
        (fun w => (w.lat, w.lng, w.name))) :=
  ⟨⟨by with_unfolding_all decide, by with_unfolding_all decide⟩,
    roundtrip_named ⟨[⟨1, 2, some "A"⟩, ⟨-(5 : ℚ)/4, 3, some "B"⟩], "R"⟩ none
      (by with_unfolding_all decide) (by with_unfolding_all decide)⟩

set_option maxRecDepth 100000 in
/-- Counterexample to C7 as stated: a single unnamed waypoint round-trips
to the synthesized name `Waypoint 1`, not to its missing name. -/
theorem roundtrip_counterexample :
    ¬ ((parseGpx (generateGpx ⟨[⟨1, 2, none⟩], "R"⟩ none)).map
        (fun r => r.2.map (fun t => (t.1, t.2.1, some t.2.2))) =
      some ((⟨[⟨1, 2, none⟩], "R"⟩ : RouteData).waypoints.map
        (fun w => (w.lat, w.lng, w.name)))) := by
  with_unfolding_all decide

theorem list_isEmpty_false {α : Type _} {l : List α} (h : ¬ (l = [])) : l.isEmpty = false := by
  cases l with
  | nil => exact absurd rfl h
  | cons a t => rfl

theorem namedDataWaypoints_isEmpty_false {coords : List (ℚ × ℚ)} (names : List String)
    (h : ¬ (coords = [])) : (namedDataWaypoints coords names).isEmpty = false := by
  cases coords with
  | nil => exact absurd rfl h
  | cons a t => rfl

/-- C1 (amended): for every URL whose data parameter contains at least
one coordinate pair, those pairs, in left-to-right stream order with
latitude from the `!2d` number and longitude from the `!1d` number,
become the candidate waypoints — completely replacing Strategy 1
candidates — named positionally from the Strategy 1 location names with
the `Start`, `End` and `Via <i>` fallbacks; extraction then returns
exactly these candidates minus any `(0,0)` pair, failing with the
extraction error when none remains (the original claim, refuted by the
counterexample, said the pairs are returned unconditionally). -/
theorem data_pairs_replace (url : String) (wps1 : List Coordinate) (names : List String)
    (d : String) (h1 : strat1 url.data = .ok (wps1, names))
    (h2 : dataParamOf url.data = .ok (some d)) (h3 : ¬ (d.data = []))
    (h4 : ¬ (scanDataCoords d.data = [])) :
    (parseGoogleMapsUrl url).map RouteData.waypoints =
      (let cands := mapIdxFrom (fun i p => Coordinate.mk p.1 p.2
          (some (claimDataName i (scanDataCoords d.data).length names))) 0 (scanDataCoords d.data)
       let valid := cands.filter (fun w => !(decide (w.lat = 0) && decide (w.lng = 0)))
       if valid = [] then Except.error JsError.extraction else Except.ok valid) := by
  have hnamed : mapIdxFrom (fun i p => Coordinate.mk p.1 p.2
      (some (claimDataName i (scanDataCoords d.data).length names))) 0 (scanDataCoords d.data) =
      namedDataWaypoints (scanDataCoords d.data) names := by
    unfold namedDataWaypoints
    apply mapIdxFrom_congr
    intro j p _
    rw [claimDataName_eq_synthName]
  have hcand : candidateWaypoints url.data =
      .ok (namedDataWaypoints (scanDataCoords d.data) names, names) := by
    unfold candidateWaypoints
    rw [h1, h2]
    simp only [candAux]
    unfold withData
    rw [jsTruthy_some h3]
    simp [Option.getD_some, list_isEmpty_false h4,
      namedDataWaypoints_isEmpty_false names h4]
  dsimp only
  rw [hnamed, ← filter_valid_eq]
  unfold parseGoogleMapsUrl
  rw [hcand]
  simp only [parseFromCands]
  by_cases he : ((namedDataWaypoints (scanDataCoords d.data) names).filter validCoord).isEmpty
  · rw [if_pos he]
    have hnil : (namedDataWaypoints (scanDataCoords d.data) names).filter validCoord = [] := by
      cases hl : (namedDataWaypoints (scanDataCoords d.data) names).filter validCoord with
      | nil => rfl
      | cons a t => rw [hl] at he; exact absurd he (by simp)
    rw [if_pos hnil]
    rfl
  · rw [if_neg he]
    have hne : ¬ ((namedDataWaypoints (scanDataCoords d.data) names).filter validCoord = []) := by
      intro hc
      rw [hc] at he
      exact he rfl
    rw [if_neg hne]
    rfl

/-- Witness for C1 at a URL with one data pair and no Strategy 1 data. -/
theorem data_pairs_replace_witness :
    strat1 ("https://g/a?data=!1d3!2d4").data = .ok ([], []) ∧
    dataParamOf ("https://g/a?data=!1d3!2d4").data = .ok (some "!1d3!2d4") ∧
    ¬ (("!1d3!2d4" : String).data = []) ∧
    ¬ (scanDataCoords ("!1d3!2d4" : String).data = []) ∧
    (parseGoogleMapsUrl "https://g/a?data=!1d3!2d4").map RouteData.waypoints =
      (let cands := mapIdxFrom (fun i p => Coordinate.mk p.1 p.2
          (some (claimDataName i (scanDataCoords ("!1d3!2d4" : String).data).length []))) 0
          (scanDataCoords ("!1d3!2d4" : String).data)
       let valid := cands.filter (fun w => !(decide (w.lat = 0) && decide (w.lng = 0)))
       if valid = [] then Except.error JsError.extraction else Except.ok valid) :=
  ⟨by with_unfolding_all rfl, by with_unfolding_all rfl, by decide,
    by with_unfolding_all decide,
    data_pairs_replace "https://g/a?data=!1d3!2d4" [] [] "!1d3!2d4"
      (by with_unfolding_all rfl) (by with_unfolding_all rfl) (by decide)
      (by with_unfolding_all decide)⟩

/-- Counterexample to C1 as stated: a data parameter holding exactly the
pair `!1d0!2d0` contains one coordinate pair, yet extraction returns no
waypoint at all — it fails — because the pair is the dropped `(0,0)`. -/
theorem data_pairs_counterexample :
    searchParamsGetData ("https://g/x?data=!1d0!2d0").data = some "!1d0!2d0" ∧
    scanDataCoords ("!1d0!2d0" : String).data = [(0, 0)] ∧
    parseGoogleMapsUrl "https://g/x?data=!1d0!2d0" = .error .extraction :=
  ⟨by with_unfolding_all rfl, by with_unfolding_all rfl, by with_unfolding_all rfl⟩

end GmapsGpx
